import Mathlib

/-!
Verification of the proxy-dashboard backend (src/backend/server.py).

The embedding models JSON values, the four durable JSON-file stores
(token, metadata, links cache, runtime config), the upstream request
outcomes, and the request handlers `get_links`, `patch_link_meta` and
`delete_link_meta`.  Machine-level details that the handlers observe are
kept: Python `int()` conversion, Python truthiness, `dict.get` defaults,
pydantic field validation of `LinkOut`, the uncaught-exception paths
(JSON decode errors, `int()` failures, `RuntimeError` from the store
reader), and the stable ascending sort by first domain name.
-/

/-- JSON values as produced by `json.loads`.  Numbers are modelled as
integers (the records the handlers inspect carry integer ids and ports);
object fields are kept in insertion order with unique keys, as Python
dicts are. -/
inductive Json where
  | null : Json
  | bool : Bool → Json
  | num : Int → Json
  | str : String → Json
  | arr : List Json → Json
  | obj : List (String × Json) → Json

/-- Lexicographic comparison of character lists by code point, the order
Python uses for `str` comparison.  Defined structurally so that concrete
instances evaluate in the kernel. -/
def lexLe : List Char → List Char → Bool
  | [], _ => true
  | _ :: _, [] => false
  | a :: as, b :: bs =>
    if a.toNat < b.toNat then true
    else if b.toNat < a.toNat then false
    else lexLe as bs

/-- Python string `<=` (code-point lexicographic). -/
def strLe (a b : String) : Bool := lexLe a.toList b.toList

/-- Python `str.strip()`: remove leading and trailing whitespace. -/
def stripChars (s : String) : String :=
  String.mk (((s.toList.dropWhile Char.isWhitespace).reverse.dropWhile Char.isWhitespace).reverse)

/-- Parse a nonempty all-digit character list as a natural number. -/
def digitsToNat : List Char → Option Nat
  | [] => none
  | cs =>
    if cs.all Char.isDigit then
      some (cs.foldl (fun a c => a * 10 + (c.toNat - 48)) 0)
    else none

/-- Python `int(s)` on a string: strip whitespace, optional sign, digits. -/
def pyStrToInt (s : String) : Option Int :=
  match (stripChars s).toList with
  | '+' :: rest => (digitsToNat rest).map Int.ofNat
  | '-' :: rest => (digitsToNat rest).map (fun n => -(Int.ofNat n))
  | l => (digitsToNat l).map Int.ofNat

/-- Python `int(v)` on a JSON-decoded value: ints pass through, bools map
to 0/1, integer-literal strings parse; everything else raises. -/
def pyInt : Json → Option Int
  | .num n => some n
  | .bool b => some (if b then 1 else 0)
  | .str s => pyStrToInt s
  | _ => none

/-- Python truthiness of a JSON-decoded value. -/
def pyBool : Json → Bool
  | .null => false
  | .bool b => b
  | .num n => n != 0
  | .str s => s != ""
  | .arr xs => !xs.isEmpty
  | .obj fs => !fs.isEmpty

/-- `h.get(k)`: absent keys yield Python `None`, i.e. JSON null. -/
def dictGet (fields : List (String × Json)) (k : String) : Json :=
  (List.lookup k fields).getD Json.null

/-- `h.get(k, d)` with an explicit default. -/
def dictGetD (fields : List (String × Json)) (k : String) (d : Json) : Json :=
  (List.lookup k fields).getD d

/-- Whether a JSON value is an object (`isinstance(h, dict)`). -/
def isObjB : Json → Bool
  | .obj _ => true
  | _ => false

/-- State of one of the durable JSON files: absent, present but not
parseable as JSON, or present with a parsed JSON value. -/
inductive FileState where
  | missing : FileState
  | unreadable : FileState
  | parsed : Json → FileState

/-- `_read_json_file`: `None` on `FileNotFoundError`; any other failure
(in particular a JSON parse failure) raises `RuntimeError`, modelled as
the error case. -/
def readJsonFile : FileState → Except Unit (Option Json)
  | .missing => .ok none
  | .unreadable => .error ()
  | .parsed j => .ok (some j)

/-- `load_token`: the saved token string if the file holds an object with
a nonempty-after-strip string under "token", else `None`. -/
def load_token (fs : FileState) : Except Unit (Option String) :=
  (readJsonFile fs).map fun
    | some (.obj fields) =>
      match dictGet fields "token" with
      | .str t => if stripChars t == "" then none else some (stripChars t)
      | _ => none
    | _ => none

/-- A loaded metadata store: stringified link id to raw metadata object. -/
abbrev MetaStore : Type := List (String × List (String × Json))

/-- `load_meta`: keep only the entries whose value is an object. -/
def load_meta (fs : FileState) : Except Unit MetaStore :=
  (readJsonFile fs).map fun
    | some (.obj fields) =>
      fields.filterMap fun kv =>
        match kv.2 with
        | .obj vf => some (kv.1, vf)
        | _ => none
    | _ => []

/-- `load_links_cache`: `(hosts, fetched_at)`.  Hosts are the list under
"hosts" restricted to its object elements; `fetched_at` is kept only when
it is a string.  Any non-object file content or non-list "hosts" yields
`(None, None)`. -/
def load_links_cache (fs : FileState) : Except Unit (Option (List Json) × Option String) :=
  (readJsonFile fs).map fun
    | some (.obj fields) =>
      match dictGet fields "hosts" with
      | .arr xs =>
        (some (xs.filter isObjB),
          match dictGet fields "fetched_at" with
          | .str s => some s
          | _ => none)
      | _ => (none, none)
    | _ => (none, none)

/-- The JSON document `save_links_cache` writes: a fresh timestamp and
the raw host list. -/
def cacheJson (now : String) (hosts : List Json) : Json :=
  .obj [("fetched_at", .str now), ("hosts", .arr hosts)]

/-- `str.startswith`, evaluated over the character lists. -/
def startsWithChars (s pre : String) : Bool :=
  pre.toList.isPrefixOf s.toList

/-- `_validate_base_url`: strip, drop trailing slashes, require a
nonempty http(s) URL. -/
def validate_base_url (url : String) : Option String :=
  let u := String.mk (((stripChars url).toList.reverse.dropWhile (· == '/')).reverse)
  if u == "" then none
  else if startsWithChars u "http://" || startsWithChars u "https://" then some u
  else none

/-- `load_runtime_config`: the configured base URL when the file holds an
object with a valid "npm_base_url" string, otherwise the environment
default.  A parse failure of the file itself propagates. -/
def load_runtime_config (fs : FileState) (defaultUrl : String) : Except Unit String :=
  (readJsonFile fs).map fun
    | some (.obj fields) =>
      match dictGet fields "npm_base_url" with
      | .str s => (validate_base_url s).getD defaultUrl
      | _ => defaultUrl
    | _ => defaultUrl

/-- The merged view record (`LinkOut`). -/
structure LinkOut where
  id : Int
  domain_names : List String
  forward_host : Option String
  forward_port : Option Int
  name : Option String
  description : Option String
  emoji : Option String
  hidden : Bool
deriving DecidableEq

/-- pydantic validation of an `Optional[str]` field from a raw JSON
value: null/absent is `None`, strings pass, anything else is rejected. -/
def jsonOptStr : Json → Option (Option String)
  | .null => some none
  | .str s => some (some s)
  | _ => none

/-- pydantic validation of an `Optional[int]` field: null is `None`,
integers pass, integer-literal strings coerce, anything else is
rejected. -/
def jsonOptInt : Json → Option (Option Int)
  | .null => some none
  | .num n => some (some n)
  | .str s => (pyStrToInt s).map some
  | _ => none

/-- pydantic validation of a `list[str]` field. -/
def jsonStrList : Json → Option (List String)
  | .arr xs =>
    xs.mapM fun
      | .str s => some s
      | _ => none
  | _ => none

/-- `h.get("domain_names") or []`: falsy values are replaced by the empty
list before validation. -/
def normDomains (raw : Json) : Json :=
  if pyBool raw then raw else .arr []

/-- Construction of one `LinkOut` from a host object `f`, its parsed id,
and its raw metadata entry `m`; `none` models a pydantic
`ValidationError`, which aborts the request. -/
def buildLinkOut (f : List (String × Json)) (hid : Int) (m : List (String × Json)) :
    Option LinkOut :=
  match jsonStrList (normDomains (dictGet f "domain_names")),
      jsonOptStr (dictGet f "forward_host"),
      jsonOptInt (dictGet f "forward_port"),
      jsonOptStr (dictGet m "name"),
      jsonOptStr (dictGet m "description"),
      jsonOptStr (dictGet m "emoji") with
  | some dn, some fh, some fp, some nm, some ds, some em =>
    some ⟨hid, dn, fh, fp, nm, ds, em, pyBool (dictGetD m "hidden" (.bool false))⟩
  | _, _, _, _, _, _ => none

/-- The id-parsing step of the merge loop: `int(h.get("id"))`, with every
failure (missing key, unparsable value, non-dict host) caught. -/
def hostIdOf : Json → Option Int
  | .obj f => pyInt (dictGet f "id")
  | _ => none

/-- `merge_hosts_with_meta`: hosts whose id fails `int()` are skipped
(the bare `except` also swallows the attribute error of a non-dict);
field validation failures abort the whole merge. -/
def merge_hosts_with_meta : List Json → MetaStore → Option (List LinkOut)
  | [], _ => some []
  | h :: hs, meta =>
    match h with
    | .obj f =>
      match pyInt (dictGet f "id") with
      | none => merge_hosts_with_meta hs meta
      | some hid =>
        match buildLinkOut f hid ((List.lookup (toString hid) meta).getD []) with
        | none => none
        | some lo => (merge_hosts_with_meta hs meta).map (lo :: ·)
    | _ => merge_hosts_with_meta hs meta

/-- The sort key: first domain name, or the empty string. -/
def sortKey (x : LinkOut) : String :=
  match x.domain_names with
  | [] => ""
  | d :: _ => d

instance : DecidableRel (fun a b : LinkOut => strLe (sortKey a) (sortKey b) = true) :=
  fun _ _ => inferInstanceAs (Decidable (_ = true))

/-- `merged.sort(key=...)`: a stable ascending sort by `sortKey`,
modelled by insertion sort (Python list.sort is a stable sort; any stable
sort has the same observable result). -/
def viewSort (l : List LinkOut) : List LinkOut :=
  List.insertionSort (fun a b => strLe (sortKey a) (sortKey b) = true) l

/-- Outcome of one HTTP request issued through `npm_request`: a transport
error (`httpx.HTTPError`) or a response with a status code and a body
that may or may not parse as JSON. -/
inductive BodyParse where
  | bad : BodyParse
  | json : Json → BodyParse

inductive UpstreamResult where
  | netError : UpstreamResult
  | resp : Nat → BodyParse → UpstreamResult

/-- `validate_token`: true unless the probe answers 401; a transport
error is caught and returns false. -/
def validate_token : UpstreamResult → Bool
  | .netError => false
  | .resp s _ => s != 401

/-- Error outcomes of a request, by HTTP status class.  `internalError`
stands for an unhandled exception (HTTP 500). -/
inductive Err where
  | unauthorized : String → Err
  | notConfigured : Err
  | notFound : Err
  | internalError : Err
deriving DecidableEq

/-- Provenance of a served view, with the cache timestamp when cached. -/
inductive Prov where
  | live : Prov
  | cache : Option String → Prov
deriving DecidableEq

def noTokenDetail : String := "No saved NPM token. Call POST /auth/token/renew first."

def badTokenDetail : String := "Saved NPM token is invalid/expired. Call POST /auth/token/renew."

def noDataDetail : String := "No valid NPM token and no cached links available. Call POST /auth/token/renew."

def hiddenDetail : String := "Admin credentials required to include hidden links."

def invalidAdminDetail : String := "Invalid admin credentials."

def expiredDetail : String := "NPM token expired/invalid."

def notAuthDetail : String := "Not authenticated"

/-- `is_admin`: false without credentials or without configured admin
user and password; otherwise compare both. -/
def is_admin (adminUser adminPass : String) (creds : Option (String × String)) : Bool :=
  match creds with
  | none => false
  | some (u, p) =>
    if adminUser == "" || adminPass == "" then false
    else u == adminUser && p == adminPass

/-- `require_admin` behind `HTTPBasic`: absent credentials are rejected
by the security dependency with 401; then missing configuration yields
503 and wrong credentials 401. -/
def require_admin (adminUser adminPass : String) (creds : Option (String × String)) :
    Except Err Unit :=
  match creds with
  | none => .error (.unauthorized notAuthDetail)
  | some (u, p) =>
    if adminUser == "" || adminPass == "" then .error .notConfigured
    else if u == adminUser && p == adminPass then .ok ()
    else .error (.unauthorized invalidAdminDetail)

/-- The live-fetch attempt of `get_links` (token load, probe, listing
request).  `ok none` means fall back to the cache; `ok (some hosts)`
means a live list was obtained (and will be cached); `error` models an
exception that escapes the `except httpx.HTTPError` handler. -/
def attemptLive (tokenFile : FileState) (probe fetch : UpstreamResult) :
    Except Err (Option (List Json)) :=
  match load_token tokenFile with
  | .error _ => .error .internalError
  | .ok none => .ok none
  | .ok (some _) =>
    if validate_token probe then
      match fetch with
      | .netError => .ok none
      | .resp s body =>
        if s == 401 then .ok none
        else if 400 ≤ s then .ok none
        else
          match body with
          | .bad => .error .internalError
          | .json (.arr xs) => .ok (some (xs.filter isObjB))
          | .json _ => .ok none
    else .ok none

/-- The tail of `get_links`: load metadata, merge, filter hidden links
unless requested, sort. -/
def finishView (hosts : List Json) (p : Prov) (metaFile : FileState)
    (include_hidden : Bool) : Except Err (List LinkOut × Prov) :=
  match load_meta metaFile with
  | .error _ => .error .internalError
  | .ok meta =>
    match merge_hosts_with_meta hosts meta with
    | none => .error .internalError
    | some merged =>
      .ok (viewSort (if include_hidden then merged else merged.filter (fun x => !x.hidden)), p)

/-- `get_links`.  Returns the response (view plus provenance, or an
error) together with the cache file after the call. -/
def get_links (adminUser adminPass : String) (include_hidden : Bool)
    (creds : Option (String × String)) (tokenFile : FileState)
    (probe fetch : UpstreamResult) (cacheFile metaFile : FileState) (now : String) :
    Except Err (List LinkOut × Prov) × FileState :=
  if include_hidden && !is_admin adminUser adminPass creds then
    (if adminUser == "" || adminPass == "" then (.error .notConfigured, cacheFile)
     else (.error (.unauthorized hiddenDetail), cacheFile))
  else
    match attemptLive tokenFile probe fetch with
    | .error e => (.error e, cacheFile)
    | .ok (some hosts) =>
      (finishView hosts .live metaFile include_hidden, .parsed (cacheJson now hosts))
    | .ok none =>
      match load_links_cache cacheFile with
      | .error _ => (.error .internalError, cacheFile)
      | .ok (none, _) => (.error (.unauthorized noDataDetail), cacheFile)
      | .ok (some cached, fa) =>
        (finishView cached (.cache fa) metaFile include_hidden, cacheFile)

/-- `get_valid_token_or_401`: 401 when no token is saved or the probe
says it is invalid; a parse failure of the token file propagates. -/
def get_valid_token_or_401 (tokenFile : FileState) (probe : UpstreamResult) :
    Except Err String :=
  match load_token tokenFile with
  | .error _ => .error .internalError
  | .ok none => .error (.unauthorized noTokenDetail)
  | .ok (some t) =>
    if validate_token probe then .ok t
    else .error (.unauthorized badTokenDetail)

/-- The membership test of `patch_link_meta`:
`any(int(h.get("id", -1)) == link_id for h in hosts if isinstance(h, dict))`.
Non-dict elements are filtered out; a host whose id value makes `int()`
raise aborts the whole generator (the error case). -/
def anyWithId : List Json → Int → Except Unit Bool
  | [], _ => .ok false
  | h :: hs, i =>
    match h with
    | .obj f =>
      match pyInt (dictGetD f "id" (.num (-1))) with
      | none => .error ()
      | some n => if n == i then .ok true else anyWithId hs i
    | _ => anyWithId hs i

/-- `next(h for h in hosts if int(h.get("id", -1)) == link_id)`: unlike
the membership test this generator has no dict filter, so a non-dict
element raises, as does an unparsable id; exhaustion raises
`StopIteration`. -/
def findHost : List Json → Int → Except Unit Json
  | [], _ => .error ()
  | h :: hs, i =>
    match h with
    | .obj f =>
      match pyInt (dictGetD f "id" (.num (-1))) with
      | none => .error ()
      | some n => if n == i then .ok h else findHost hs i
    | _ => .error ()

/-- The validated `LinkMeta` patch body.  The outer option is pydantic
field-set tracking (`exclude_unset`): `none` means the field was absent
from the request; the inner option is an explicit null. -/
structure LinkMeta where
  name : Option (Option String)
  description : Option (Option String)
  emoji : Option (Option String)
  hidden : Option (Option Bool)

/-- Blank-string normalization of a set string field: a string that is
empty after strip is stored as null. -/
def strFieldJson : Option String → Json
  | none => .null
  | some s => if stripChars s == "" then .null else .str s

/-- `patch.model_dump(exclude_unset=True)` after blank-string
normalization, in model field order. -/
def updateList (p : LinkMeta) : List (String × Json) :=
  (match p.name with
   | some v => [("name", strFieldJson v)]
   | none => []) ++
  (match p.description with
   | some v => [("description", strFieldJson v)]
   | none => []) ++
  (match p.emoji with
   | some v => [("emoji", strFieldJson v)]
   | none => []) ++
  (match p.hidden with
   | some (some b) => [("hidden", Json.bool b)]
   | some none => [("hidden", Json.null)]
   | none => [])

/-- Python `d[k] = v` on an insertion-ordered dict: replace in place if
the key exists, else append. -/
def setField : List (String × Json) → String → Json → List (String × Json)
  | [], k, v => [(k, v)]
  | (k', v') :: rest, k, v =>
    if k' == k then (k', v) :: rest else (k', v') :: setField rest k v

/-- `current.update(update)`. -/
def dictUpdate (d : List (String × Json)) (upd : List (String × Json)) :
    List (String × Json) :=
  upd.foldl (fun acc kv => setField acc kv.1 kv.2) d

/-- `meta[key] = current` on the metadata store. -/
def metaSet : MetaStore → String → List (String × Json) → MetaStore
  | [], k, v => [(k, v)]
  | (k', v') :: rest, k, v =>
    if k' == k then (k', v) :: rest else (k', v') :: metaSet rest k v

/-- `meta.pop(str(link_id), None)`. -/
def metaErase (m : MetaStore) (k : String) : MetaStore :=
  m.filter (fun kv => kv.1 != k)

/-- The pre-commit phase of `patch_link_meta`: admin gate, token
re-validation, live listing fetch, `raise_for_status`, body decode, and
the id-membership check.  Yields the live host list on success. -/
def patchCheck (adminUser adminPass : String) (creds : Option (String × String))
    (tokenFile : FileState) (probe fetch : UpstreamResult) (link_id : Int) :
    Except Err (List Json) :=
  match require_admin adminUser adminPass creds with
  | .error e => .error e
  | .ok _ =>
    match get_valid_token_or_401 tokenFile probe with
    | .error e => .error e
    | .ok _ =>
      match fetch with
      | .netError => .error .internalError
      | .resp s body =>
        if s == 401 then .error (.unauthorized expiredDetail)
        else if 400 ≤ s then .error .internalError
        else
          match body with
          | .bad => .error .internalError
          | .json (.arr hosts) =>
            match anyWithId hosts link_id with
            | .error _ => .error .internalError
            | .ok false => .error .notFound
            | .ok true => .ok hosts
          | .json _ => .error .notFound

/-- The response phase of `patch_link_meta`, run after `save_meta`: find
the matching host again and merge it with the new store; any failure
here is an unhandled exception, but the commit has already happened. -/
def patchRespond (hosts : List Json) (meta1 : MetaStore) (link_id : Int) :
    Except Err LinkOut :=
  match findHost hosts link_id with
  | .error _ => .error .internalError
  | .ok h =>
    match merge_hosts_with_meta [h] meta1 with
    | none => .error .internalError
    | some [] => .error .internalError
    | some (lo :: _) => .ok lo

/-- `patch_link_meta`.  The second component is `some m` exactly when
`save_meta(m)` ran; `none` means the metadata store was not written. -/
def patch_link_meta (adminUser adminPass : String) (creds : Option (String × String))
    (tokenFile : FileState) (probe fetch : UpstreamResult) (metaFile : FileState)
    (link_id : Int) (body : LinkMeta) :
    Except Err LinkOut × Option MetaStore :=
  match patchCheck adminUser adminPass creds tokenFile probe fetch link_id with
  | .error e => (.error e, none)
  | .ok hosts =>
    match load_meta metaFile with
    | .error _ => (.error .internalError, none)
    | .ok meta0 =>
      let key := toString link_id
      let current := (List.lookup key meta0).getD []
      let meta1 := metaSet meta0 key (dictUpdate current (updateList body))
      (patchRespond hosts meta1 link_id, some meta1)

/-- `delete_link_meta`: admin gate, then unconditionally remove the
entry and save. -/
def delete_link_meta (adminUser adminPass : String) (creds : Option (String × String))
    (metaFile : FileState) (link_id : Int) :
    Except Err Unit × Option MetaStore :=
  match require_admin adminUser adminPass creds with
  | .error e => (.error e, none)
  | .ok _ =>
    match load_meta metaFile with
    | .error _ => (.error .internalError, none)
    | .ok meta0 =>
      (.ok (), some (metaErase meta0 (toString link_id)))

/-! Concrete sample values used by witnesses and counterexamples. -/

/-- A token file holding a valid-looking saved token. -/
def tokenFileOk : FileState := .parsed (.obj [("token", .str "t")])

/-- A probe request that answered 200, so the token validates. -/
def probeOk : UpstreamResult := .resp 200 (.json .null)

/-- The sample upstream record with id 7 from the specification. -/
def sampleHost7 : Json := .obj [("id", .num 7), ("domain_names", .arr [.str "b.example.com"])]

/-- The sample upstream record with id 3 from the specification. -/
def sampleHost3 : Json := .obj [("id", .num 3), ("domain_names", .arr [.str "a.example.com"])]

/-- The merged view of `sampleHost7` with no metadata. -/
def sampleLink7 : LinkOut := ⟨7, ["b.example.com"], none, none, none, none, none, false⟩

/-- The merged view of `sampleHost3` with no metadata. -/
def sampleLink3 : LinkOut := ⟨3, ["a.example.com"], none, none, none, none, none, false⟩

/-- A minimal host record with id 1 and no domains. -/
def sampleHostA : Json := .obj [("id", .num 1)]

/-- The merged view of `sampleHostA` with no metadata. -/
def sampleLinkA : LinkOut := ⟨1, [], none, none, none, none, none, false⟩

/-- A patch body that sets no field. -/
def emptyPatch : LinkMeta := ⟨none, none, none, none⟩

/-! Helper lemmas. -/

theorem lexLe_total : ∀ a b, lexLe a b = true ∨ lexLe b a = true := by
  intro a
  induction a with
  | nil => intro b; left; rfl
  | cons x xs ih =>
    intro b
    cases b with
    | nil => right; rfl
    | cons y ys =>
      simp only [lexLe]
      rcases Nat.lt_trichotomy x.toNat y.toNat with h | h | h
      · left; simp [h]
      · have h2 : ¬ x.toNat < y.toNat := by omega
        have h3 : ¬ y.toNat < x.toNat := by omega
        rcases ih ys with h4 | h4
        · left; simp [h2, h3, h4]
        · right; simp [h2, h3, h4]
      · right; simp [h, Nat.lt_asymm h]

theorem lexLe_trans : ∀ a b c, lexLe a b = true → lexLe b c = true → lexLe a c = true := by
  intro a
  induction a with
  | nil => intro b c _ _; rfl
  | cons x xs ih =>
    intro b c hab hbc
    cases b with
    | nil => simp [lexLe] at hab
    | cons y ys =>
      cases c with
      | nil => simp [lexLe] at hbc
      | cons z zs =>
        simp only [lexLe] at hab hbc ⊢
        by_cases h1 : x.toNat < y.toNat
        · by_cases h2 : y.toNat < z.toNat
          · have : x.toNat < z.toNat := Nat.lt_trans h1 h2
            simp [this]
          · by_cases h3 : z.toNat < y.toNat
            · simp [h2, h3] at hbc
            · have : x.toNat < z.toNat := by omega
              simp [this]
        · by_cases h4 : y.toNat < x.toNat
          · simp [h1, h4] at hab
          · by_cases h2 : y.toNat < z.toNat
            · have : x.toNat < z.toNat := by omega
              simp [this]
            · by_cases h3 : z.toNat < y.toNat
              · simp [h2, h3] at hbc
              · have h5 : ¬ x.toNat < z.toNat := by omega
                have h6 : ¬ z.toNat < x.toNat := by omega
                simp [h1, h4] at hab
                simp [h2, h3] at hbc
                simp [h5, h6]
                exact ih ys zs hab hbc

theorem viewSort_sorted (l : List LinkOut) :
    List.Sorted (fun a b => strLe (sortKey a) (sortKey b) = true) (viewSort l) := by
  haveI : IsTotal LinkOut (fun a b => strLe (sortKey a) (sortKey b) = true) :=
    ⟨fun a b => lexLe_total (sortKey a).toList (sortKey b).toList⟩
  haveI : IsTrans LinkOut (fun a b => strLe (sortKey a) (sortKey b) = true) :=
    ⟨fun a b c => lexLe_trans (sortKey a).toList (sortKey b).toList (sortKey c).toList⟩
  exact List.sorted_insertionSort _ l

theorem finishView_ok {hosts : List Json} {p : Prov} {metaFile : FileState}
    {ih : Bool} {v : List LinkOut} {q : Prov}
    (h : finishView hosts p metaFile ih = .ok (v, q)) :
    (∃ u, v = viewSort u) ∧ q = p := by
  unfold finishView at h
  split at h
  · exact absurd h (by simp)
  · split at h
    · exact absurd h (by simp)
    · rename_i merged hm
      injection h with h1
      injection h1 with h2 h3
      exact ⟨⟨_, h2.symm⟩, h3.symm⟩

theorem get_links_ok_sorted {adminUser adminPass : String} {include_hidden : Bool}
    {creds : Option (String × String)} {tokenFile : FileState}
    {probe fetch : UpstreamResult} {cacheFile metaFile : FileState} {now : String}
    {v : List LinkOut} {p : Prov}
    (h : (get_links adminUser adminPass include_hidden creds tokenFile probe fetch
        cacheFile metaFile now).fst = .ok (v, p)) :
    List.Sorted (fun a b => strLe (sortKey a) (sortKey b) = true) v := by
  unfold get_links at h
  split at h
  · split at h <;> exact absurd h (by simp)
  · split at h
    · exact absurd h (by simp)
    · obtain ⟨⟨u, hu⟩, -⟩ := finishView_ok h
      rw [hu]; exact viewSort_sorted u
    · split at h
      · exact absurd h (by simp)
      · exact absurd h (by simp)
      · obtain ⟨⟨u, hu⟩, -⟩ := finishView_ok h
        rw [hu]; exact viewSort_sorted u

theorem buildLinkOut_id {f : List (String × Json)} {hid : Int}
    {m : List (String × Json)} {lo : LinkOut}
    (h : buildLinkOut f hid m = some lo) : lo.id = hid := by
  unfold buildLinkOut at h
  split at h
  · injection h with h1
    rw [← h1]
  · exact absurd h (by simp)

theorem get_valid_ok {tokenFile : FileState} {probe : UpstreamResult} {t : String}
    (h : get_valid_token_or_401 tokenFile probe = .ok t) :
    validate_token probe = true := by
  unfold get_valid_token_or_401 at h
  split at h
  · exact absurd h (by simp)
  · exact absurd h (by simp)
  · split at h
    · assumption
    · exact absurd h (by simp)

theorem patchCheck_ok {adminUser adminPass : String} {creds : Option (String × String)}
    {tokenFile : FileState} {probe fetch : UpstreamResult} {link_id : Int}
    {hosts : List Json}
    (h : patchCheck adminUser adminPass creds tokenFile probe fetch link_id = .ok hosts) :
    validate_token probe = true ∧
      ∃ s, fetch = .resp s (.json (.arr hosts)) ∧ anyWithId hosts link_id = .ok true := by
  unfold patchCheck at h
  split at h
  · exact absurd h (by simp)
  · split at h
    · exact absurd h (by simp)
    · rename_i t hvalid
      refine ⟨get_valid_ok hvalid, ?_⟩
      split at h
      · exact absurd h (by simp)
      · rename_i s body
        split at h
        · exact absurd h (by simp)
        · split at h
          · exact absurd h (by simp)
          · split at h
            · exact absurd h (by simp)
            · rename_i xs
              split at h
              · exact absurd h (by simp)
              · exact absurd h (by simp)
              · rename_i hany
                injection h with h1
                subst h1
                exact ⟨s, rfl, hany⟩
            · exact absurd h (by simp)

theorem lookup_metaSet_ne (m : MetaStore) (key k : String)
    (v : List (String × Json)) (hk : k ≠ key) :
    List.lookup k (metaSet m key v) = List.lookup k m := by
  induction m with
  | nil => simp [metaSet, List.lookup, beq_eq_false_iff_ne.mpr hk]
  | cons hd tl ih =>
    obtain ⟨k', v'⟩ := hd
    by_cases hkey : (k' == key) = true
    · have hkk : (k == k') = false := by
        refine beq_eq_false_iff_ne.mpr ?_
        intro h
        exact hk (h.trans (by simpa using hkey))
      simp [metaSet, hkey, List.lookup, hkk]
    · simp only [metaSet]
      rw [if_neg hkey]
      cases hkk : k == k' <;> simp [List.lookup, hkk, ih]

theorem lookup_metaErase_ne (m : MetaStore) (key k : String) (hk : k ≠ key) :
    List.lookup k (metaErase m key) = List.lookup k m := by
  induction m with
  | nil => rfl
  | cons hd tl ih =>
    obtain ⟨k', v'⟩ := hd
    simp only [metaErase, List.filter_cons] at ih ⊢
    by_cases hkey : (k' != key) = true
    · rw [if_pos hkey]
      cases hkk : k == k' <;> simp [List.lookup, hkk, ih]
    · have hk2 : k' = key := by
        by_contra hne
        exact hkey (by simp [bne_iff_ne, hne])
      have hkk : (k == k') = false :=
        beq_eq_false_iff_ne.mpr (fun h => hk (h.trans hk2))
      rw [if_neg hkey]
      simp [List.lookup, hkk, ih]

/-! Claim theorems. -/

/-- C1 (counterexample to the claim as stated): with a saved token that
validates, a cache snapshot present, and a live fetch that fails because
its 200 response body is not parseable JSON, `get_links` raises an
unhandled decode error (HTTP 500) instead of returning the cached view;
the cache file is still left unchanged. -/
theorem C1_counterexample :
    load_token tokenFileOk = .ok (some "t") ∧
    validate_token probeOk = true ∧
    load_links_cache (.parsed (cacheJson "T0" [sampleHostA])) = .ok (some [sampleHostA], some "T0") ∧
    get_links "" "" false none tokenFileOk probeOk (.resp 200 .bad)
        (.parsed (cacheJson "T0" [sampleHostA])) (.parsed (.obj [])) "T" =
      (.error .internalError, .parsed (cacheJson "T0" [sampleHostA])) :=
  ⟨rfl, rfl, rfl, rfl⟩

/-- C1 (amended): for every authorized request whose live attempt ends
without hosts (token absent or failing validation, or the fetch ending
in a 401, an error status, a transport error, or JSON that is not an
array) and whose cache snapshot loads, the call never writes the cache
file, and whenever metadata loads and the merge succeeds the returned
view has provenance cache carrying the stored fetched_at value. -/
theorem C1_cache_fallback_readonly
    (adminUser adminPass : String) (include_hidden : Bool)
    (creds : Option (String × String)) (tokenFile : FileState)
    (probe fetch : UpstreamResult) (cacheFile metaFile : FileState) (now : String)
    (cached : List Json) (fa : Option String)
    (hgate : (include_hidden && !is_admin adminUser adminPass creds) = false)
    (hlive : attemptLive tokenFile probe fetch = .ok none)
    (hcache : load_links_cache cacheFile = .ok (some cached, fa)) :
    (get_links adminUser adminPass include_hidden creds tokenFile probe fetch
        cacheFile metaFile now).snd = cacheFile ∧
    ∀ meta merged, load_meta metaFile = .ok meta →
      merge_hosts_with_meta cached meta = some merged →
      (get_links adminUser adminPass include_hidden creds tokenFile probe fetch
          cacheFile metaFile now).fst =
        .ok (viewSort (if include_hidden then merged
          else merged.filter (fun x => !x.hidden)), .cache fa) := by
  constructor
  · simp [get_links, hgate, hlive, hcache]
  · intro meta merged hmeta hmerge
    simp [get_links, finishView, hgate, hlive, hcache, hmeta, hmerge]

/-- Witness for C1: with no saved token and a one-host cache snapshot,
the call serves the cached host with provenance cache and timestamp T0. -/
theorem C1_witness :
    (get_links "" "" false none .missing .netError .netError
        (.parsed (cacheJson "T0" [sampleHostA])) (.parsed (.obj [])) "T").fst =
      .ok ([sampleLinkA], .cache (some "T0")) :=
  (C1_cache_fallback_readonly "" "" false none .missing .netError .netError
      (.parsed (cacheJson "T0" [sampleHostA])) (.parsed (.obj [])) "T"
      [sampleHostA] (some "T0") rfl rfl rfl).2 [] [sampleLinkA] rfl rfl

/-- C2 (counterexample to the claim as stated): when the upstream body is
the JSON array with the single non-object element 5, the call succeeds
with provenance live but the snapshot written to the cache holds the
empty host list, not the fetched list. -/
theorem C2_counterexample :
    get_links "" "" false none tokenFileOk probeOk (.resp 200 (.json (.arr [.num 5])))
        .missing (.parsed (.obj [])) "T" =
      (.ok ([], .live), .parsed (cacheJson "T" [])) ∧
    Json.arr ([] : List Json) ≠ Json.arr [Json.num 5] :=
  ⟨rfl, by simp⟩

/-- C2 (amended): for every authorized request with a saved token that
validates and a live listing answering a non-401, non-error status with
a JSON array, the cache file is overwritten with a snapshot holding the
call's fresh timestamp and the object elements of the fetched array, and
whenever the merge succeeds the returned view has provenance live. -/
theorem C2_live_writes_cache
    (adminUser adminPass : String) (include_hidden : Bool)
    (creds : Option (String × String)) (tokenFile : FileState)
    (probe fetch : UpstreamResult) (cacheFile metaFile : FileState) (now : String)
    (s : Nat) (xs : List Json) (t : String)
    (hgate : (include_hidden && !is_admin adminUser adminPass creds) = false)
    (htok : load_token tokenFile = .ok (some t))
    (hprobe : validate_token probe = true)
    (hfetch : fetch = .resp s (.json (.arr xs)))
    (hs1 : (s == 401) = false)
    (hs2 : ¬ 400 ≤ s) :
    (get_links adminUser adminPass include_hidden creds tokenFile probe fetch
        cacheFile metaFile now).snd = .parsed (cacheJson now (xs.filter isObjB)) ∧
    ∀ meta merged, load_meta metaFile = .ok meta →
      merge_hosts_with_meta (xs.filter isObjB) meta = some merged →
      (get_links adminUser adminPass include_hidden creds tokenFile probe fetch
          cacheFile metaFile now).fst =
        .ok (viewSort (if include_hidden then merged
          else merged.filter (fun x => !x.hidden)), .live) := by
  have hlive : attemptLive tokenFile probe fetch = .ok (some (xs.filter isObjB)) := by
    simp [attemptLive, htok, hprobe, hfetch, hs1, hs2]
  constructor
  · simp [get_links, hgate, hlive]
  · intro meta merged hmeta hmerge
    simp [get_links, finishView, hgate, hlive, hmeta, hmerge]

/-- Witness for C2: a live fetch of the sample host overwrites the cache
with that host under the fresh timestamp. -/
theorem C2_witness :
    (get_links "" "" false none tokenFileOk probeOk
        (.resp 200 (.json (.arr [sampleHost3]))) .missing (.parsed (.obj [])) "T").snd =
      .parsed (cacheJson "T" [sampleHost3]) :=
  (C2_live_writes_cache "" "" false none tokenFileOk probeOk
      (.resp 200 (.json (.arr [sampleHost3]))) .missing (.parsed (.obj [])) "T"
      200 [sampleHost3] "t" rfl rfl rfl rfl rfl (by decide)).1

/-- C3 (counterexample to the claim as stated): with a valid token, a
fetch whose 200 body is unparseable, and no cache, the call fails with
an internal error, not with the no-data 401. -/
theorem C3_counterexample :
    (get_links "" "" false none tokenFileOk probeOk (.resp 200 .bad) .missing
        (.parsed (.obj [])) "T").fst = .error .internalError ∧
    Err.internalError ≠ Err.unauthorized noDataDetail :=
  ⟨rfl, by decide⟩

/-- C3 (amended): for every authorized request whose live attempt ends
without hosts and whose cache snapshot loads as absent, `get_links`
fails with the no-data 401 telling the caller to re-authenticate, and
leaves the cache file unchanged. -/
theorem C3_no_data
    (adminUser adminPass : String) (include_hidden : Bool)
    (creds : Option (String × String)) (tokenFile : FileState)
    (probe fetch : UpstreamResult) (cacheFile metaFile : FileState) (now : String)
    (hgate : (include_hidden && !is_admin adminUser adminPass creds) = false)
    (hlive : attemptLive tokenFile probe fetch = .ok none)
    (hcache : load_links_cache cacheFile = .ok (none, none)) :
    get_links adminUser adminPass include_hidden creds tokenFile probe fetch
        cacheFile metaFile now =
      (.error (.unauthorized noDataDetail), cacheFile) := by
  simp [get_links, hgate, hlive, hcache]

/-- Witness for C3: no token and no cache yields the no-data 401. -/
theorem C3_witness :
    get_links "" "" false none .missing .netError .netError .missing .missing "T" =
      (.error (.unauthorized noDataDetail), .missing) :=
  C3_no_data "" "" false none .missing .netError .netError .missing .missing "T" rfl rfl rfl

/-- C4: a request for hidden links from a caller who is not an
authenticated admin fails with 503 when no admin user/password is
configured and with 401 otherwise; with admin capability unconfigured,
the admin gate also rejects every supplied credential with 503 and never
succeeds. -/
theorem C4_admin_gate
    (adminUser adminPass : String) (creds : Option (String × String))
    (tokenFile : FileState) (probe fetch : UpstreamResult)
    (cacheFile metaFile : FileState) (now : String)
    (hadm : is_admin adminUser adminPass creds = false) :
    ((adminUser == "" || adminPass == "") = true →
      (get_links adminUser adminPass true creds tokenFile probe fetch
          cacheFile metaFile now).fst = .error .notConfigured ∧
      (∀ u p, require_admin adminUser adminPass (some (u, p)) = .error .notConfigured) ∧
      ∀ c, require_admin adminUser adminPass c ≠ .ok ()) ∧
    ((adminUser == "" || adminPass == "") = false →
      (get_links adminUser adminPass true creds tokenFile probe fetch
          cacheFile metaFile now).fst = .error (.unauthorized hiddenDetail)) := by
  constructor
  · intro hcfg
    refine ⟨?_, ?_, ?_⟩
    · simp [get_links, hadm, hcfg]
    · intro u p
      simp [require_admin, hcfg]
    · intro c
      cases c with
      | none => simp [require_admin]
      | some up =>
        obtain ⟨u, p⟩ := up
        simp [require_admin, hcfg]
  · intro hcfg
    simp [get_links, hadm, hcfg]

/-- Witness for C4: with empty admin configuration, a hidden-links
request carrying credentials fails with 503. -/
theorem C4_witness :
    (get_links "" "" true (some ("u", "p")) .missing .netError .netError
        .missing .missing "T").fst = .error .notConfigured :=
  ((C4_admin_gate "" "" (some ("u", "p")) .missing .netError .netError
      .missing .missing "T" rfl).1 rfl).1

/-- C5 (counterexample to the claim as stated): for each of the four
stores, a file with unparseable content makes load propagate the read
failure instead of returning the absent/default result. -/
theorem C5_counterexample :
    load_token .unreadable = .error () ∧ load_meta .unreadable = .error () ∧
    load_links_cache .unreadable = .error () ∧
    load_runtime_config .unreadable "http://default" = .error () :=
  ⟨rfl, rfl, rfl, rfl⟩

/-- C5 (amended): every store load returns its absent/default result
without error on a missing file, and likewise on a file whose content
parses as JSON but is not an object; only unparseable content raises. -/
theorem C5_load_defaults :
    (load_token .missing = .ok none ∧ load_meta .missing = .ok [] ∧
     load_links_cache .missing = .ok (none, none) ∧
     ∀ d, load_runtime_config .missing d = .ok d) ∧
    ∀ j, isObjB j = false →
      load_token (.parsed j) = .ok none ∧ load_meta (.parsed j) = .ok [] ∧
      load_links_cache (.parsed j) = .ok (none, none) ∧
      ∀ d, load_runtime_config (.parsed j) d = .ok d := by
  constructor
  · exact ⟨rfl, rfl, rfl, fun d => rfl⟩
  · intro j hj
    cases j with
    | obj fs => simp [isObjB] at hj
    | null => exact ⟨rfl, rfl, rfl, fun d => rfl⟩
    | bool b => exact ⟨rfl, rfl, rfl, fun d => rfl⟩
    | num n => exact ⟨rfl, rfl, rfl, fun d => rfl⟩
    | str s => exact ⟨rfl, rfl, rfl, fun d => rfl⟩
    | arr xs => exact ⟨rfl, rfl, rfl, fun d => rfl⟩

/-- Witness for C5: a token file holding the JSON number 3 loads as the
absent token. -/
theorem C5_witness : load_token (.parsed (.num 3)) = .ok none :=
  (C5_load_defaults.2 (.num 3) rfl).1

/-- C6 (counterexample to the claim as stated): on a transport error the
validator returns false, although the probe did not yield the
Unauthorized signal. -/
theorem C6_counterexample : validate_token .netError = false := rfl

/-- C6 (amended): the validator returns false exactly when the probe
ends in a transport error or answers status 401, and true for every
completed response with another status. -/
theorem C6_unauthorized_or_transport (u : UpstreamResult) :
    validate_token u = false ↔ (u = .netError ∨ ∃ b, u = .resp 401 b) := by
  cases u with
  | netError => simp [validate_token]
  | resp s b =>
    simp only [validate_token]
    constructor
    · intro h
      have hs : s = 401 := by simpa using h
      exact Or.inr ⟨b, by rw [hs]⟩
    · rintro (h | ⟨b2, h⟩)
      · exact absurd h (by simp)
      · injection h with h1 h2
        simp [h1]

/-- C7: every view that `get_links` returns is sorted ascending by the
first domain name (empty string when a link has none) under raw
code-point string comparison; in particular the sample listing with ids
7 and 3 is served as id 3 before id 7, provenance live. -/
theorem C7_sorted_view :
    (∀ (adminUser adminPass : String) (include_hidden : Bool)
        (creds : Option (String × String)) (tokenFile : FileState)
        (probe fetch : UpstreamResult) (cacheFile metaFile : FileState) (now : String)
        (v : List LinkOut) (p : Prov),
      (get_links adminUser adminPass include_hidden creds tokenFile probe fetch
          cacheFile metaFile now).fst = .ok (v, p) →
      List.Sorted (fun a b => strLe (sortKey a) (sortKey b) = true) v) ∧
    get_links "" "" false none tokenFileOk probeOk
        (.resp 200 (.json (.arr [sampleHost7, sampleHost3]))) .missing
        (.parsed (.obj [])) "T" =
      (.ok ([sampleLink3, sampleLink7], .live),
        .parsed (cacheJson "T" [sampleHost7, sampleHost3])) := by
  constructor
  · intro aU aP ih creds tf pr fe cf mf now v p h
    exact get_links_ok_sorted h
  · rfl

/-- Witness for C7: the served sample view is sorted by first domain. -/
theorem C7_witness :
    List.Sorted (fun a b => strLe (sortKey a) (sortKey b) = true)
      [sampleLink3, sampleLink7] :=
  C7_sorted_view.1 "" "" false none tokenFileOk probeOk
    (.resp 200 (.json (.arr [sampleHost7, sampleHost3]))) .missing
    (.parsed (.obj [])) "T" [sampleLink3, sampleLink7] .live rfl

/-- C8: whenever the merge succeeds, the ids of the merged view are
exactly, in order, the ids of the hosts whose id field parses under
Python int conversion; records with missing or unparsable ids appear in
no merged link. -/
theorem C8_id_partition : ∀ (hosts : List Json) (meta : MetaStore) (out : List LinkOut),
    merge_hosts_with_meta hosts meta = some out →
    out.map (fun x => x.id) = hosts.filterMap hostIdOf := by
  intro hosts meta
  induction hosts with
  | nil =>
    intro out h
    injection h with h1
    rw [← h1]
    rfl
  | cons h hs ih =>
    intro out hm
    cases h with
    | obj f =>
      simp only [merge_hosts_with_meta] at hm
      cases hid : pyInt (dictGet f "id") with
      | none =>
        rw [hid] at hm
        simp [List.filterMap_cons, hostIdOf, hid, ih out hm]
      | some i =>
        rw [hid] at hm
        dsimp only at hm
        cases hb : buildLinkOut f i ((List.lookup (toString i) meta).getD []) with
        | none =>
          rw [hb] at hm
          exact absurd hm (by simp)
        | some lo =>
          rw [hb] at hm
          cases hr : merge_hosts_with_meta hs meta with
          | none =>
            rw [hr] at hm
            exact absurd hm (by simp)
          | some rest =>
            rw [hr] at hm
            simp only [Option.map_some'] at hm
            injection hm with h1
            rw [← h1]
            simp [List.filterMap_cons, hostIdOf, hid, buildLinkOut_id hb, ih rest hr]
    | null =>
      simp only [merge_hosts_with_meta] at hm
      simp [List.filterMap_cons, hostIdOf, ih out hm]
    | bool b =>
      simp only [merge_hosts_with_meta] at hm
      simp [List.filterMap_cons, hostIdOf, ih out hm]
    | num n =>
      simp only [merge_hosts_with_meta] at hm
      simp [List.filterMap_cons, hostIdOf, ih out hm]
    | str s =>
      simp only [merge_hosts_with_meta] at hm
      simp [List.filterMap_cons, hostIdOf, ih out hm]
    | arr xs =>
      simp only [merge_hosts_with_meta] at hm
      simp [List.filterMap_cons, hostIdOf, ih out hm]

/-- Witness for C8: a record with the unparsable id "abc" is dropped and
the record with id 2 is kept. -/
theorem C8_witness :
    ([⟨2, [], none, none, none, none, none, false⟩] : List LinkOut).map (fun x => x.id) =
      [Json.obj [("id", Json.str "abc")], Json.obj [("id", Json.num 2)]].filterMap hostIdOf :=
  C8_id_partition [Json.obj [("id", Json.str "abc")], Json.obj [("id", Json.num 2)]] []
    [⟨2, [], none, none, none, none, none, false⟩] rfl

/-- C9 (counterexample to the claim as stated): with an authorized admin,
a valid token, and a live listing whose only record has the unparsable
id "x", a patch for the absent id 5 fails with an internal error (the
int conversion raises) rather than with NotFound; the store is still
unwritten. -/
theorem C9_counterexample :
    patch_link_meta "a" "b" (some ("a", "b")) tokenFileOk probeOk
        (.resp 200 (.json (.arr [.obj [("id", .str "x")]]))) (.parsed (.obj [])) 5 emptyPatch =
      (.error .internalError, none) ∧
    [Json.obj [("id", Json.str "x")]].filterMap hostIdOf = [] ∧
    Err.internalError ≠ Err.notFound :=
  ⟨rfl, rfl, by decide⟩

/-- C9 (amended): patch rejects with 401 and no store write when no token
is saved or the saved token fails re-validation; when the live listing is
fetched and the membership scan answers that the id is absent, patch
rejects with NotFound and no store write; when the scan aborts on an
unparsable id, patch fails with an internal error and no store write; and
every run that writes the store had a validating token and a live listing
containing the id. -/
theorem C9_patch_guard
    (adminUser adminPass : String) (creds : Option (String × String))
    (tokenFile : FileState) (probe fetch : UpstreamResult) (metaFile : FileState)
    (link_id : Int) (body : LinkMeta) (s : Nat) (hosts : List Json) :
    (require_admin adminUser adminPass creds = .ok () →
      load_token tokenFile = .ok none →
      patch_link_meta adminUser adminPass creds tokenFile probe fetch metaFile link_id body =
        (.error (.unauthorized noTokenDetail), none)) ∧
    (require_admin adminUser adminPass creds = .ok () →
      (∃ t, load_token tokenFile = .ok (some t)) →
      validate_token probe = false →
      patch_link_meta adminUser adminPass creds tokenFile probe fetch metaFile link_id body =
        (.error (.unauthorized badTokenDetail), none)) ∧
    (require_admin adminUser adminPass creds = .ok () →
      (∃ t, get_valid_token_or_401 tokenFile probe = .ok t) →
      fetch = .resp s (.json (.arr hosts)) →
      (s == 401) = false → ¬ 400 ≤ s →
      anyWithId hosts link_id = .ok false →
      patch_link_meta adminUser adminPass creds tokenFile probe fetch metaFile link_id body =
        (.error .notFound, none)) ∧
    (require_admin adminUser adminPass creds = .ok () →
      (∃ t, get_valid_token_or_401 tokenFile probe = .ok t) →
      fetch = .resp s (.json (.arr hosts)) →
      (s == 401) = false → ¬ 400 ≤ s →
      anyWithId hosts link_id = .error () →
      patch_link_meta adminUser adminPass creds tokenFile probe fetch metaFile link_id body =
        (.error .internalError, none)) ∧
    (∀ m', (patch_link_meta adminUser adminPass creds tokenFile probe fetch metaFile
        link_id body).snd = some m' →
      validate_token probe = true ∧
      ∃ s2 hosts2, fetch = .resp s2 (.json (.arr hosts2)) ∧
        anyWithId hosts2 link_id = .ok true) := by
  refine ⟨?_, ?_, ?_, ?_, ?_⟩
  · intro hreq htok
    simp [patch_link_meta, patchCheck, get_valid_token_or_401, hreq, htok]
  · rintro hreq ⟨t, htok⟩ hval
    simp [patch_link_meta, patchCheck, get_valid_token_or_401, hreq, htok, hval]
  · rintro hreq ⟨t, hvalid⟩ hfetch hs1 hs2 hany
    simp [patch_link_meta, patchCheck, hreq, hvalid, hfetch, hs1, hs2, hany]
  · rintro hreq ⟨t, hvalid⟩ hfetch hs1 hs2 hany
    simp [patch_link_meta, patchCheck, hreq, hvalid, hfetch, hs1, hs2, hany]
  · intro m' h
    unfold patch_link_meta at h
    split at h
    · simp at h
    · rename_i hosts2 hchk
      split at h
      · simp at h
      · obtain ⟨hv, s2, hf, ha⟩ := patchCheck_ok hchk
        exact ⟨hv, s2, hosts2, hf, ha⟩

/-- Witness for C9: a patch for id 5 against the live listing holding
only id 1 is rejected with NotFound and writes nothing. -/
theorem C9_witness :
    patch_link_meta "a" "b" (some ("a", "b")) tokenFileOk probeOk
        (.resp 200 (.json (.arr [sampleHostA]))) (.parsed (.obj [])) 5 emptyPatch =
      (.error .notFound, none) :=
  (C9_patch_guard "a" "b" (some ("a", "b")) tokenFileOk probeOk
      (.resp 200 (.json (.arr [sampleHostA]))) (.parsed (.obj [])) 5 emptyPatch
      200 [sampleHostA]).2.2.1 rfl ⟨"t", rfl⟩ rfl rfl (by decide) rfl

/-- C10: whenever patch or delete writes the metadata store, every entry
other than the one keyed by the stringified link id is looked up
unchanged: patch writes only its own key and delete removes at most its
own key. -/
theorem C10_frame
    (adminUser adminPass : String) (creds : Option (String × String))
    (tokenFile : FileState) (probe fetch : UpstreamResult) (metaFile : FileState)
    (link_id : Int) (body : LinkMeta) (k : String) (meta0 : MetaStore)
    (hmeta : load_meta metaFile = .ok meta0) (hk : k ≠ toString link_id) :
    (∀ m', (patch_link_meta adminUser adminPass creds tokenFile probe fetch metaFile
        link_id body).snd = some m' →
      List.lookup k m' = List.lookup k meta0) ∧
    (∀ m', (delete_link_meta adminUser adminPass creds metaFile link_id).snd = some m' →
      List.lookup k m' = List.lookup k meta0) := by
  constructor
  · intro m' h
    unfold patch_link_meta at h
    split at h
    · simp at h
    · rename_i hosts2 hchk
      split at h
      · simp at h
      · rename_i meta1 hm1
        rw [hmeta] at hm1
        injection hm1 with h2
        simp only at h
        injection h with h3
        rw [← h3, h2]
        exact lookup_metaSet_ne meta1 (toString link_id) k _ hk
  · intro m' h
    unfold delete_link_meta at h
    split at h
    · simp at h
    · split at h
      · simp at h
      · rename_i meta1 hm1
        rw [hmeta] at hm1
        injection hm1 with h2
        simp only at h
        injection h with h3
        rw [← h3, h2]
        exact lookup_metaErase_ne meta1 (toString link_id) k hk

/-- Witness for C10: a successful patch of id 9 leaves the entry for
key "3" unchanged. -/
theorem C10_witness :
    List.lookup "3" [("3", [("name", Json.str "A")]), ("9", [("name", Json.str "N")])] =
      List.lookup "3"
        ([("3", [("name", Json.str "A")]), ("9", [])] : MetaStore) :=
  (C10_frame "a" "b" (some ("a", "b")) tokenFileOk probeOk
      (.resp 200 (.json (.arr [.obj [("id", .num 9)]])))
      (.parsed (.obj [("3", .obj [("name", .str "A")]), ("9", .obj [])])) 9
      ⟨some (some "N"), none, none, none⟩ "3"
      [("3", [("name", Json.str "A")]), ("9", [])] rfl (by decide)).1
    [("3", [("name", Json.str "A")]), ("9", [("name", Json.str "N")])] rfl
